import Mathlib

/-!
Verification of the temperature endpoint in `apps/temperature-api/main.py`.

The program is a single FastAPI handler:

    @app.get("/temperature")
    def get_temperature(location: str = Query(...)):
        value = round(random.uniform(-25.0, 35.0), 1)
        return {"value": value, "unit": "C",
                "timestamp": datetime.now(timezone.utc).isoformat(),
                "location": location}

Shallow embedding choices:
* The query-string binding is `Option String`: `Query(...)` marks the
  parameter required, so a request without `location` is rejected by the
  framework's validation layer with HTTP 422 before the handler body runs;
  a request with `location` present (any string, including the empty one)
  binds it.
* `random.uniform(-25.0, 35.0)` draws from the process-wide pseudo-random
  source; the handler is embedded as a pure function of the drawn sample
  (a rational), and `runRequest`/`runCalls` thread the source explicitly as
  a stream of pre-drawn samples together with a position that advances on
  every draw.
* Python `round(x, 1)` rounds to the nearest multiple of 1/10, ties to
  even; this is `round1` below, over exact rationals.
* `datetime.now(timezone.utc)` is modelled as a `DateTime` input (the clock
  reading at the moment of handling); `.isoformat()` is reproduced
  faithfully: `YYYY-MM-DDTHH:MM:SS[.ffffff]+00:00`, the fractional part
  omitted exactly when `microsecond = 0`.
-/

namespace TemperatureApi

/-- The ten decimal digit characters; arguments not below ten fall to the
last case (callers always pass a value below ten). -/
def dChar (k : ℕ) : Char :=
  match k with
  | 0 => '0'
  | 1 => '1'
  | 2 => '2'
  | 3 => '3'
  | 4 => '4'
  | 5 => '5'
  | 6 => '6'
  | 7 => '7'
  | 8 => '8'
  | _ => '9'

/-- Powers of ten by structural recursion (keeps kernel reduction cheap). -/
def tenPow : ℕ → ℕ
  | 0 => 1
  | w + 1 => 10 * tenPow w

/-- `padChars w n` is the zero-padded `w`-digit decimal rendering of `n`
(most significant digit first), as produced by Python's `%02d`-style
formatting inside `datetime.isoformat`. -/
def padChars : ℕ → ℕ → List Char
  | 0, _ => []
  | w + 1, n => dChar (n / tenPow w % 10) :: padChars w n

/-- Python `datetime.isoformat` prints `.ffffff` exactly when the
microsecond field is nonzero. -/
def fracChars (μ : ℕ) : List Char :=
  if μ = 0 then [] else '.' :: padChars 6 μ

/-- The UTC offset suffix `+00:00` that `datetime.now(timezone.utc)`
carries into `isoformat`. -/
def offChars : List Char :=
  [ '+', '0', '0', ':', '0', '0' ]

/-- A `datetime` value as produced by `datetime.now(timezone.utc)`:
calendar fields plus microseconds, implicitly in UTC. -/
structure DateTime where
  year : ℕ
  month : ℕ
  day : ℕ
  hour : ℕ
  minute : ℕ
  second : ℕ
  microsecond : ℕ
deriving DecidableEq, Repr

/-- Field ranges guaranteed by Python's `datetime` type (year 1–9999,
month 1–12, day 1–31, hour < 24, minute < 60, second < 60,
microsecond < 10^6). -/
def DateTime.valid (d : DateTime) : Prop :=
  1 ≤ d.year ∧ d.year ≤ 9999 ∧ 1 ≤ d.month ∧ d.month ≤ 12 ∧
  1 ≤ d.day ∧ d.day ≤ 31 ∧ d.hour ≤ 23 ∧ d.minute ≤ 59 ∧
  d.second ≤ 59 ∧ d.microsecond ≤ 999999

instance (d : DateTime) : Decidable d.valid := by
  unfold DateTime.valid; infer_instance

/-- Linearisation of a `DateTime` into a single natural number; two clock
readings compare chronologically iff their keys compare. -/
def DateTime.key (d : DateTime) : ℕ :=
  d.microsecond +
    1000000 * (d.second + 60 * (d.minute + 60 * (d.hour + 24 * (d.day + 32 * (d.month + 13 * d.year)))))

/-- Chronological order on clock readings. -/
def DateTime.le (d1 d2 : DateTime) : Prop :=
  d1.key ≤ d2.key

instance (d1 d2 : DateTime) : Decidable (DateTime.le d1 d2) := by
  unfold DateTime.le; infer_instance

/-- The character data of `datetime.isoformat()` for a UTC datetime:
`YYYY-MM-DDTHH:MM:SS[.ffffff]+00:00`. -/
def isoChars (d : DateTime) : List Char :=
  padChars 4 d.year ++ '-' ::
    (padChars 2 d.month ++ '-' ::
      (padChars 2 d.day ++ 'T' ::
        (padChars 2 d.hour ++ ':' ::
          (padChars 2 d.minute ++ ':' ::
            (padChars 2 d.second ++ (fracChars d.microsecond ++ offChars))))))

/-- `datetime.now(timezone.utc).isoformat()` as a string. -/
def isoformat (d : DateTime) : String :=
  String.mk (isoChars d)

/-- Python `round` to an integer: nearest integer, ties to the even one. -/
def roundHalfEven (q : ℚ) : ℤ :=
  if q - (⌊q⌋ : ℚ) < 1 / 2 then ⌊q⌋
  else if 1 / 2 < q - (⌊q⌋ : ℚ) then ⌊q⌋ + 1
  else if ⌊q⌋ % 2 = 0 then ⌊q⌋ else ⌊q⌋ + 1

/-- Python `round(x, 1)`: round to the nearest multiple of one tenth,
ties to even. -/
def round1 (q : ℚ) : ℚ :=
  (roundHalfEven (q * 10) : ℚ) / 10

/-- The response entity built by the handler (field for field the returned
dict). -/
structure TemperatureReading where
  value : ℚ
  unit : String
  timestamp : String
  location : String
deriving DecidableEq, Repr

/-- Outcome of one request: either a reading (HTTP 200) or the framework's
validation rejection of a missing required parameter (HTTP 422). -/
inductive HandlerResult where
  | ok (reading : TemperatureReading)
  | validationError
deriving DecidableEq, Repr

/-- The endpoint, as a function of the bound query parameter, the sample
drawn by `random.uniform(-25.0, 35.0)`, and the clock reading taken by
`datetime.now(timezone.utc)`. A missing `location` never reaches the
handler body: the framework's validation layer rejects it. -/
def get_temperature (location : Option String) (sample : ℚ) (now : DateTime) :
    HandlerResult :=
  match location with
  | none => HandlerResult.validationError
  | some loc =>
      HandlerResult.ok
        { value := round1 sample
          unit := "C"
          timestamp := isoformat now
          location := loc }

/-- HTTP status of an outcome (FastAPI: 200 for a returned dict, 422 for a
request-validation failure). -/
def httpStatus : HandlerResult → ℕ
  | HandlerResult.ok _ => 200
  | HandlerResult.validationError => 422

/-- The process-wide pseudo-random source: the stream of successive values
that `random.uniform(-25.0, 35.0)` would return, together with the current
position (the generator state advances by one on each draw). -/
structure RandomSource where
  stream : ℕ → ℚ
  pos : ℕ

/-- One draw from the source: returns the next sample and the advanced
source. -/
def uniformDraw (src : RandomSource) : ℚ × RandomSource :=
  (src.stream src.pos, RandomSource.mk src.stream (src.pos + 1))

/-- Operational semantics of one request: a missing `location` is rejected
before the body runs (no draw, no clock read); otherwise the body draws one
sample and builds the reading from it and the clock. -/
def runRequest (src : RandomSource) (location : Option String) (now : DateTime) :
    HandlerResult × RandomSource :=
  match location with
  | none => (HandlerResult.validationError, src)
  | some _ =>
      let drawn := uniformDraw src
      (get_temperature location drawn.1 now, drawn.2)

/-- Sequential calls on one process: each call receives its own bound
parameter and clock reading, and the random source is threaded through. -/
def runCalls : RandomSource → List (Option String × DateTime) → List HandlerResult
  | _, [] => []
  | src, c :: cs =>
      let step := runRequest src c.1 c.2
      step.1 :: runCalls step.2 cs

/-- Number of samples a call sequence draws from the source (one per call
that passes validation, none for a rejected call). -/
def drawCount (calls : List (Option String × DateTime)) : ℕ :=
  (calls.filter (fun c => c.1.isSome)).length

/-- Advancing the source position by `n` draws. -/
def RandomSource.advance (src : RandomSource) (n : ℕ) : RandomSource :=
  RandomSource.mk src.stream (src.pos + n)

/-- Decimal value of a digit character. -/
def dVal (c : Char) : ℕ :=
  c.toNat - 48

/-- Tail of a valid ISO-8601 UTC timestamp after the seconds field: either
the offset designator `+00:00` immediately, or a fractional part
`.ffffff` followed by it. -/
def checkTail : List Char → Bool
  | [ '+', '0', '0', ':', '0', '0' ] => true
  | '.' :: f1 :: f2 :: f3 :: f4 :: f5 :: f6 :: '+' :: '0' :: '0' :: ':' :: '0' :: '0' :: [] =>
      f1.isDigit && f2.isDigit && f3.isDigit && f4.isDigit && f5.isDigit && f6.isDigit
  | _ => false

/-- Recogniser for valid ISO-8601 UTC instants `YYYY-MM-DDTHH:MM:SS+00:00`
or `YYYY-MM-DDTHH:MM:SS.ffffff+00:00`: digits and separators in place,
month, day, hour, minute and second fields in range, and the explicit UTC
offset designator present. -/
def checkIso : List Char → Bool
  | y1 :: y2 :: y3 :: y4 :: p1 :: m1 :: m2 :: p2 :: d1 :: d2 :: p3 :: h1 :: h2 :: p4 ::
      n1 :: n2 :: p5 :: e1 :: e2 :: rest =>
      y1.isDigit && y2.isDigit && y3.isDigit && y4.isDigit &&
      (p1 == '-') && (p2 == '-') && (p3 == 'T') && (p4 == ':') && (p5 == ':') &&
      m1.isDigit && m2.isDigit && d1.isDigit && d2.isDigit &&
      h1.isDigit && h2.isDigit && n1.isDigit && n2.isDigit &&
      e1.isDigit && e2.isDigit &&
      decide (1 ≤ 10 * dVal m1 + dVal m2) && decide (10 * dVal m1 + dVal m2 ≤ 12) &&
      decide (1 ≤ 10 * dVal d1 + dVal d2) && decide (10 * dVal d1 + dVal d2 ≤ 31) &&
      decide (10 * dVal h1 + dVal h2 ≤ 23) &&
      decide (10 * dVal n1 + dVal n2 ≤ 59) &&
      decide (10 * dVal e1 + dVal e2 ≤ 59) &&
      checkTail rest
  | _ => false

/-- Recogniser on strings. -/
def isValidIsoUtc (s : String) : Bool :=
  checkIso s.data

/-- A concrete clock reading used to instantiate theorems. -/
def sampleDT : DateTime :=
  DateTime.mk 2026 10 12 8 30 5 123456

/-- A concrete clock reading with zero microseconds (the `isoformat`
branch that omits the fractional part). -/
def sampleDT0 : DateTime :=
  DateTime.mk 2026 10 12 8 30 5 0

/-- A concrete random source used to instantiate theorems: the first draw
yields 0, every later draw yields 1. -/
def cxStream : RandomSource :=
  RandomSource.mk (fun i => match i with | 0 => 0 | _ => 1) 0

/-! ### Properties of the rounding function -/

theorem roundHalfEven_ge (q : ℚ) (a : ℤ) (ha : (a : ℚ) ≤ q) :
    a ≤ roundHalfEven q := by
  have h := Int.le_floor.mpr ha
  unfold roundHalfEven
  split_ifs <;> omega

theorem roundHalfEven_le (q : ℚ) (b : ℤ) (hb : q ≤ (b : ℚ)) :
    roundHalfEven q ≤ b := by
  have hfl : ⌊q⌋ ≤ b := (Int.floor_le_floor hb).trans_eq (Int.floor_intCast b)
  have hf : (⌊q⌋ : ℚ) ≤ q := Int.floor_le q
  unfold roundHalfEven
  split_ifs with h1 h2 h3
  · exact hfl
  · have hq : (⌊q⌋ : ℚ) + 1 / 2 < (b : ℚ) := by linarith
    have : (⌊q⌋ : ℚ) < (b : ℚ) := by linarith
    have : ⌊q⌋ < b := by exact_mod_cast this
    omega
  · exact hfl
  · have hr : q - (⌊q⌋ : ℚ) = 1 / 2 := le_antisymm (not_lt.mp h2) (not_lt.mp h1)
    have hq : (⌊q⌋ : ℚ) + 1 / 2 ≤ (b : ℚ) := by linarith
    have : (⌊q⌋ : ℚ) < (b : ℚ) := by linarith
    have : ⌊q⌋ < b := by exact_mod_cast this
    omega

theorem round1_bounds (x : ℚ) (hlo : -25 ≤ x) (hhi : x ≤ 35) :
    -25 ≤ round1 x ∧ round1 x ≤ 35 := by
  have h1 : ((-250 : ℤ) : ℚ) ≤ (roundHalfEven (x * 10) : ℚ) := by
    exact_mod_cast roundHalfEven_ge (x * 10) (-250) (by push_cast; linarith)
  have h2 : ((roundHalfEven (x * 10) : ℤ) : ℚ) ≤ ((350 : ℤ) : ℚ) := by
    exact_mod_cast roundHalfEven_le (x * 10) 350 (by push_cast; linarith)
  unfold round1
  constructor <;> push_cast at h1 h2 ⊢ <;> linarith

/-! ### Digit and padding lemmas -/

theorem dChar_isDigit (k : ℕ) : (dChar k).isDigit = true := by
  unfold dChar
  split <;> rfl

theorem dVal_dChar_mod (n : ℕ) : dVal (dChar (n % 10)) = n % 10 := by
  have h : n % 10 < 10 := Nat.mod_lt n (by norm_num)
  generalize hk : n % 10 = k at *
  interval_cases k <;> rfl

theorem padChars_two (n : ℕ) :
    padChars 2 n = [ dChar (n / 10 % 10), dChar (n % 10) ] := by
  show [ dChar (n / tenPow 1 % 10), dChar (n / tenPow 0 % 10) ] = _
  rw [show tenPow 1 = 10 from rfl, show tenPow 0 = 1 from rfl, Nat.div_one]

theorem padChars_four (n : ℕ) :
    padChars 4 n =
      [ dChar (n / 1000 % 10), dChar (n / 100 % 10), dChar (n / 10 % 10),
        dChar (n % 10) ] := by
  show [ dChar (n / tenPow 3 % 10), dChar (n / tenPow 2 % 10),
    dChar (n / tenPow 1 % 10), dChar (n / tenPow 0 % 10) ] = _
  rw [show tenPow 3 = 1000 from rfl, show tenPow 2 = 100 from rfl,
    show tenPow 1 = 10 from rfl, show tenPow 0 = 1 from rfl, Nat.div_one]

theorem padChars_six (n : ℕ) :
    padChars 6 n =
      [ dChar (n / 100000 % 10), dChar (n / 10000 % 10), dChar (n / 1000 % 10),
        dChar (n / 100 % 10), dChar (n / 10 % 10), dChar (n % 10) ] := by
  show [ dChar (n / tenPow 5 % 10), dChar (n / tenPow 4 % 10),
    dChar (n / tenPow 3 % 10), dChar (n / tenPow 2 % 10),
    dChar (n / tenPow 1 % 10), dChar (n / tenPow 0 % 10) ] = _
  rw [show tenPow 5 = 100000 from rfl, show tenPow 4 = 10000 from rfl,
    show tenPow 3 = 1000 from rfl, show tenPow 2 = 100 from rfl,
    show tenPow 1 = 10 from rfl, show tenPow 0 = 1 from rfl, Nat.div_one]

/-- Every string `isoformat` emits from an in-range datetime passes the
ISO-8601 UTC recogniser. -/
theorem checkIso_isoChars (d : DateTime) (hd : d.valid) :
    checkIso (isoChars d) = true := by
  obtain ⟨y, mo, dd, hh, mi, ss, μ⟩ := d
  obtain ⟨hy1, hy2, hm1, hm2, hd1, hd2, hh1, hmi1, hs1, hμ1⟩ := hd
  simp only [isoChars, fracChars] at *
  by_cases hμ : μ = 0
  · subst hμ
    simp only [if_true, eq_self_iff_true, padChars_four, padChars_two,
      List.cons_append, List.nil_append, List.append_nil, offChars, checkIso,
      checkTail, dChar_isDigit, dVal_dChar_mod, Bool.and_eq_true,
      beq_self_eq_true, decide_eq_true_eq, and_true, true_and]
    omega
  · simp only [if_neg hμ, padChars_four, padChars_two, padChars_six,
      List.cons_append, List.nil_append, offChars, checkIso, checkTail,
      dChar_isDigit, dVal_dChar_mod, Bool.and_eq_true, beq_self_eq_true,
      decide_eq_true_eq, and_true, true_and]
    omega

/-- `isoChars` always ends with the UTC offset designator `+00:00`. -/
theorem isoChars_offset_suffix (d : DateTime) :
    ∃ p, isoChars d = p ++ offChars := by
  refine ⟨padChars 4 d.year ++ '-' ::
    (padChars 2 d.month ++ '-' ::
      (padChars 2 d.day ++ 'T' ::
        (padChars 2 d.hour ++ ':' ::
          (padChars 2 d.minute ++ ':' ::
            (padChars 2 d.second ++ fracChars d.microsecond))))), ?_⟩
  simp [isoChars, List.append_assoc]

/-! ### Order-preservation of the ISO-8601 rendering -/

theorem tenPow_pos (w : ℕ) : 0 < tenPow w := by
  induction w with
  | zero => norm_num [tenPow]
  | succ w ih => simp only [tenPow]; omega

theorem padChars_length (w n : ℕ) : (padChars w n).length = w := by
  induction w generalizing n with
  | zero => rfl
  | succ w ih => simp [padChars, ih]

theorem padChars_mod (w n : ℕ) : padChars w (n % tenPow w) = padChars w n := by
  induction w generalizing n with
  | zero => rfl
  | succ w ih =>
    have hdvd : tenPow w ∣ tenPow (w + 1) :=
      ⟨10, by simp only [tenPow]; ring⟩
    show dChar (n % tenPow (w + 1) / tenPow w % 10) :: padChars w (n % tenPow (w + 1)) =
      dChar (n / tenPow w % 10) :: padChars w n
    congr 1
    · have h1 : tenPow (w + 1) = tenPow w * 10 := by simp only [tenPow]; ring
      rw [h1, Nat.mod_mul_right_div_self, Nat.mod_mod_of_dvd _ (dvd_refl 10)]
    · calc padChars w (n % tenPow (w + 1)) =
            padChars w (n % tenPow (w + 1) % tenPow w) := (ih _).symm
        _ = padChars w (n % tenPow w) := by rw [Nat.mod_mod_of_dvd _ hdvd]
        _ = padChars w n := ih n

theorem dChar_lt {j k : ℕ} (hjk : j < k) (hk : k ≤ 9) : dChar j < dChar k := by
  have hj : j ≤ 8 := by omega
  interval_cases j <;> interval_cases k <;> decide

/-- A lexicographic comparison of two lists of equal length survives
appending arbitrary tails. -/
theorem lex_append_stable {α : Type} {r : α → α → Prop} :
    ∀ {l1 l2 : List α} (t1 t2 : List α), l1.length = l2.length →
      List.Lex r l1 l2 → List.Lex r (l1 ++ t1) (l2 ++ t2) := by
  intro l1 l2 t1 t2 hlen h
  induction h with
  | nil => simp at hlen
  | cons h ih => exact List.Lex.cons (ih (by simpa using hlen))
  | rel h => exact List.Lex.rel h

/-- Zero-padded fixed-width decimal rendering is strictly monotone. -/
theorem padChars_lt (w : ℕ) : ∀ {a b : ℕ}, a < b → b < tenPow w →
    List.Lex (· < ·) (padChars w a) (padChars w b) := by
  induction w with
  | zero =>
    intro a b hab hb
    simp only [tenPow] at hb
    omega
  | succ w ih =>
    intro a b hab hb
    have htp : 0 < tenPow w := tenPow_pos w
    show List.Lex (· < ·)
      (dChar (a / tenPow w % 10) :: padChars w a)
      (dChar (b / tenPow w % 10) :: padChars w b)
    have hbq : b / tenPow w < 10 := by
      have he : tenPow (w + 1) = tenPow w * 10 := by
        simp only [tenPow]; ring
      exact Nat.div_lt_of_lt_mul (he ▸ hb)
    have haq : a / tenPow w ≤ b / tenPow w := Nat.div_le_div_right (le_of_lt hab)
    rcases eq_or_lt_of_le haq with heq | hlt
    · rw [heq]
      apply List.Lex.cons
      rw [← padChars_mod w a, ← padChars_mod w b]
      have key : a % tenPow w < b % tenPow w := by
        have h1 := Nat.div_add_mod a (tenPow w)
        have h2 := Nat.div_add_mod b (tenPow w)
        rw [heq] at h1
        generalize tenPow w * (b / tenPow w) = T at h1 h2
        omega
      exact ih key (Nat.mod_lt b htp)
    · apply List.Lex.rel
      have haq9 : a / tenPow w < 10 := lt_trans hlt hbq
      show dChar (a / tenPow w % 10) < dChar (b / tenPow w % 10)
      rw [Nat.mod_eq_of_lt haq9, Nat.mod_eq_of_lt hbq]
      exact dChar_lt hlt (by omega)

/-- Chronological order of two in-range datetimes is reflected by the
lexicographic order of their ISO-8601 renderings (or the renderings are
equal). -/
theorem isoChars_lex (d1 d2 : DateTime) (h1 : d1.valid) (h2 : d2.valid)
    (hk : d1.key ≤ d2.key) :
    isoChars d1 = isoChars d2 ∨
      List.Lex (· < ·) (isoChars d1) (isoChars d2) := by
  obtain ⟨y1, mo1, da1, ho1, mi1, se1, u1⟩ := d1
  obtain ⟨y2, mo2, da2, ho2, mi2, se2, u2⟩ := d2
  simp only [DateTime.valid] at h1 h2
  simp only [DateTime.key] at hk
  obtain ⟨ha1, ha2, ha3, ha4, ha5, ha6, ha7, ha8, ha9, ha10⟩ := h1
  obtain ⟨hb1, hb2, hb3, hb4, hb5, hb6, hb7, hb8, hb9, hb10⟩ := h2
  have hsplit : y1 < y2 ∨ (y1 = y2 ∧ (mo1 < mo2 ∨ (mo1 = mo2 ∧
      (da1 < da2 ∨ (da1 = da2 ∧ (ho1 < ho2 ∨ (ho1 = ho2 ∧
        (mi1 < mi2 ∨ (mi1 = mi2 ∧ (se1 < se2 ∨ (se1 = se2 ∧ u1 ≤ u2))))))))))) := by
    omega
  simp only [isoChars]
  rcases hsplit with hy | ⟨hy, hrest⟩
  · right
    exact lex_append_stable _ _ (by rw [padChars_length, padChars_length])
      (padChars_lt 4 hy (by have h4 : tenPow 4 = 10000 := rfl; omega))
  subst hy
  rcases hrest with hmo | ⟨hmo, hrest⟩
  · right
    apply List.Lex.append_left
    apply List.Lex.cons
    exact lex_append_stable _ _ (by rw [padChars_length, padChars_length])
      (padChars_lt 2 hmo (by have h2 : tenPow 2 = 100 := rfl; omega))
  subst hmo
  rcases hrest with hda | ⟨hda, hrest⟩
  · right
    apply List.Lex.append_left
    apply List.Lex.cons
    apply List.Lex.append_left
    apply List.Lex.cons
    exact lex_append_stable _ _ (by rw [padChars_length, padChars_length])
      (padChars_lt 2 hda (by have h2 : tenPow 2 = 100 := rfl; omega))
  subst hda
  rcases hrest with hho | ⟨hho, hrest⟩
  · right
    apply List.Lex.append_left
    apply List.Lex.cons
    apply List.Lex.append_left
    apply List.Lex.cons
    apply List.Lex.append_left
    apply List.Lex.cons
    exact lex_append_stable _ _ (by rw [padChars_length, padChars_length])
      (padChars_lt 2 hho (by have h2 : tenPow 2 = 100 := rfl; omega))
  subst hho
  rcases hrest with hmi | ⟨hmi, hrest⟩
  · right
    apply List.Lex.append_left
    apply List.Lex.cons
    apply List.Lex.append_left
    apply List.Lex.cons
    apply List.Lex.append_left
    apply List.Lex.cons
    apply List.Lex.append_left
    apply List.Lex.cons
    exact lex_append_stable _ _ (by rw [padChars_length, padChars_length])
      (padChars_lt 2 hmi (by have h2 : tenPow 2 = 100 := rfl; omega))
  subst hmi
  rcases hrest with hse | ⟨hse, hu⟩
  · right
    apply List.Lex.append_left
    apply List.Lex.cons
    apply List.Lex.append_left
    apply List.Lex.cons
    apply List.Lex.append_left
    apply List.Lex.cons
    apply List.Lex.append_left
    apply List.Lex.cons
    apply List.Lex.append_left
    apply List.Lex.cons
    exact lex_append_stable _ _ (by rw [padChars_length, padChars_length])
      (padChars_lt 2 hse (by have h2 : tenPow 2 = 100 := rfl; omega))
  subst hse
  rcases eq_or_lt_of_le hu with hueq | hult
  · left
    rw [hueq]
  · right
    apply List.Lex.append_left
    apply List.Lex.cons
    apply List.Lex.append_left
    apply List.Lex.cons
    apply List.Lex.append_left
    apply List.Lex.cons
    apply List.Lex.append_left
    apply List.Lex.cons
    apply List.Lex.append_left
    apply List.Lex.cons
    apply List.Lex.append_left
    by_cases h0 : u1 = 0
    · subst h0
      have h02 : u2 ≠ 0 := by omega
      simp only [fracChars, if_pos rfl, if_neg h02, List.nil_append,
        List.cons_append, offChars]
      exact List.Lex.rel (by decide)
    · have h02 : u2 ≠ 0 := by omega
      simp only [fracChars, if_neg h0, if_neg h02, List.cons_append]
      apply List.Lex.cons
      exact lex_append_stable _ _ (by rw [padChars_length, padChars_length])
        (padChars_lt 6 hult (by have h6 : tenPow 6 = 1000000 := rfl; omega))

/-- Chronological order of in-range clock readings carries over to the
(string) order of their `isoformat` renderings. -/
theorem isoformat_le_isoformat (d1 d2 : DateTime) (h1 : d1.valid)
    (h2 : d2.valid) (hk : DateTime.le d1 d2) :
    isoformat d1 ≤ isoformat d2 := by
  rcases isoChars_lex d1 d2 h1 h2 hk with heq | hlex
  · exact le_of_eq (congrArg String.mk heq)
  · apply le_of_lt
    rw [String.lt_iff_toList_lt]
    exact hlex

/-! ### Claims about single requests -/

/-- Claim C1: for every request with `location` present, the `value` field
of the returned reading lies in the closed interval `[-25, 35]`: the
sample is drawn from that interval and rounding to one decimal place keeps
it there. -/
theorem C1_value_in_range (loc : String) (x : ℚ) (d : DateTime)
    (r : TemperatureReading) (hlo : -25 ≤ x) (hhi : x ≤ 35)
    (h : get_temperature (some loc) x d = HandlerResult.ok r) :
    -25 ≤ r.value ∧ r.value ≤ 35 := by
  simp only [get_temperature, HandlerResult.ok.injEq] at h
  subst h
  simpa using round1_bounds x hlo hhi

theorem C1_witness :
    ((-25 : ℚ) ≤ 0 ∧ (0 : ℚ) ≤ 35) ∧
      (-25 ≤ (TemperatureReading.mk (round1 0) "C" (isoformat sampleDT) "kitchen").value ∧
        (TemperatureReading.mk (round1 0) "C" (isoformat sampleDT) "kitchen").value ≤ 35) :=
  ⟨⟨by norm_num, by norm_num⟩,
    C1_value_in_range "kitchen" 0 sampleDT _ (by norm_num) (by norm_num) rfl⟩

/-- Claim C2: a request without the `location` parameter is rejected by
the validation layer with HTTP 422; no reading is constructed, the handler
body never runs, no sample is drawn (the random source is returned
unchanged) and no clock value is consulted (the outcome is independent of
the clock reading). -/
theorem C2_missing_location (src : RandomSource) (d d' : DateTime) :
    runRequest src none d = (HandlerResult.validationError, src) ∧
      httpStatus (runRequest src none d).1 = 422 ∧
      runRequest src none d = runRequest src none d' ∧
      ∀ r : TemperatureReading, (runRequest src none d).1 ≠ HandlerResult.ok r := by
  refine ⟨rfl, rfl, rfl, fun r h => ?_⟩
  simp [runRequest] at h

/-- Claim C3: the `location` field of the response equals the request's
`location` parameter exactly, with no transformation. -/
theorem C3_location_echoed (loc : String) (x : ℚ) (d : DateTime)
    (r : TemperatureReading)
    (h : get_temperature (some loc) x d = HandlerResult.ok r) :
    r.location = loc := by
  simp only [get_temperature, HandlerResult.ok.injEq] at h
  subst h
  rfl

theorem C3_witness :
    get_temperature (some "kitchen") 0 sampleDT =
        HandlerResult.ok
          (TemperatureReading.mk (round1 0) "C" (isoformat sampleDT) "kitchen") ∧
      (TemperatureReading.mk (round1 0) "C" (isoformat sampleDT) "kitchen").location =
        "kitchen" :=
  ⟨rfl, C3_location_echoed "kitchen" 0 sampleDT _ rfl⟩

/-- Claim C4: the `unit` field of every returned reading is the string
`"C"`. -/
theorem C4_unit_is_celsius (loc : String) (x : ℚ) (d : DateTime)
    (r : TemperatureReading)
    (h : get_temperature (some loc) x d = HandlerResult.ok r) :
    r.unit = "C" := by
  simp only [get_temperature, HandlerResult.ok.injEq] at h
  subst h
  rfl

theorem C4_witness :
    get_temperature (some "kitchen") 0 sampleDT =
        HandlerResult.ok
          (TemperatureReading.mk (round1 0) "C" (isoformat sampleDT) "kitchen") ∧
      (TemperatureReading.mk (round1 0) "C" (isoformat sampleDT) "kitchen").unit = "C" :=
  ⟨rfl, C4_unit_is_celsius "kitchen" 0 sampleDT _ rfl⟩

/-- Claim C5: the returned `value` has at most one decimal digit of
precision: it equals the sample rounded to one decimal place, so ten times
the value is an integer. -/
theorem C5_one_decimal_digit (loc : String) (x : ℚ) (d : DateTime)
    (r : TemperatureReading)
    (h : get_temperature (some loc) x d = HandlerResult.ok r) :
    r.value = round1 x ∧ ∃ n : ℤ, r.value * 10 = (n : ℚ) := by
  simp only [get_temperature, HandlerResult.ok.injEq] at h
  subst h
  refine ⟨rfl, roundHalfEven (x * 10), ?_⟩
  show round1 x * 10 = _
  unfold round1
  field_simp

theorem C5_witness :
    (TemperatureReading.mk (round1 0) "C" (isoformat sampleDT) "kitchen").value =
        round1 0 ∧
      ∃ n : ℤ,
        (TemperatureReading.mk (round1 0) "C" (isoformat sampleDT) "kitchen").value * 10 =
          (n : ℚ) :=
  C5_one_decimal_digit "kitchen" 0 sampleDT _ rfl

/-- Claim C8: with `location` present (any string at all) the handler
cannot fail: no validation is applied to the value and the body always
returns a reading, with HTTP status 200. -/
theorem C8_handler_total (loc : String) (x : ℚ) (d : DateTime) :
    get_temperature (some loc) x d =
        HandlerResult.ok
          (TemperatureReading.mk (round1 x) "C" (isoformat d) loc) ∧
      httpStatus (get_temperature (some loc) x d) = 200 :=
  ⟨rfl, rfl⟩

/-- Claim C10: a request supplying `location` with an empty value binds
the empty string: it is not rejected with 422 but answered with HTTP 200
and the `location` field equal to `""`. -/
theorem C10_empty_location_accepted (x : ℚ) (d : DateTime) :
    httpStatus (get_temperature (some "") x d) = 200 ∧
      ∃ r : TemperatureReading,
        get_temperature (some "") x d = HandlerResult.ok r ∧ r.location = "" :=
  ⟨rfl, TemperatureReading.mk (round1 x) "C" (isoformat d) "", rfl, rfl⟩

/-- Claim C6: for every request with `location` present the `timestamp`
field is exactly the ISO-8601 rendering of the UTC clock reading taken at
request handling; it passes the ISO-8601 UTC recogniser and ends with the
explicit UTC offset designator `+00:00`. -/
theorem C6_timestamp_iso_utc (loc : String) (x : ℚ) (d : DateTime)
    (r : TemperatureReading) (hd : d.valid)
    (h : get_temperature (some loc) x d = HandlerResult.ok r) :
    r.timestamp = isoformat d ∧ isValidIsoUtc r.timestamp = true ∧
      ∃ p, r.timestamp.data = p ++ offChars := by
  simp only [get_temperature, HandlerResult.ok.injEq] at h
  subst h
  exact ⟨rfl, checkIso_isoChars d hd, isoChars_offset_suffix d⟩

theorem C6_witness :
    DateTime.valid sampleDT ∧
      ((TemperatureReading.mk (round1 0) "C" (isoformat sampleDT) "kitchen").timestamp =
          isoformat sampleDT ∧
        isValidIsoUtc
            (TemperatureReading.mk (round1 0) "C" (isoformat sampleDT) "kitchen").timestamp =
          true ∧
        ∃ p,
          (TemperatureReading.mk (round1 0) "C" (isoformat sampleDT) "kitchen").timestamp.data =
            p ++ offChars) :=
  ⟨by decide, C6_timestamp_iso_utc "kitchen" 0 sampleDT _ (by decide) rfl⟩

/-- Claim C7: across sequential calls on the same process clock — clock
readings in `datetime`'s ranges and non-decreasing — the returned
`timestamp` strings are monotonically non-decreasing: the earlier
request's timestamp is at most the later request's timestamp. -/
theorem C7_timestamp_monotone (loc1 loc2 : String) (x1 x2 : ℚ)
    (c1 c2 : DateTime) (r1 r2 : TemperatureReading)
    (hv1 : c1.valid) (hv2 : c2.valid) (hc : DateTime.le c1 c2)
    (e1 : get_temperature (some loc1) x1 c1 = HandlerResult.ok r1)
    (e2 : get_temperature (some loc2) x2 c2 = HandlerResult.ok r2) :
    r1.timestamp ≤ r2.timestamp := by
  simp only [get_temperature, HandlerResult.ok.injEq] at e1 e2
  subst e1
  subst e2
  exact isoformat_le_isoformat c1 c2 hv1 hv2 hc

theorem C7_witness :
    (DateTime.valid sampleDT0 ∧ DateTime.valid sampleDT ∧
        DateTime.le sampleDT0 sampleDT) ∧
      (TemperatureReading.mk (round1 0) "C" (isoformat sampleDT0) "a").timestamp ≤
        (TemperatureReading.mk (round1 0) "C" (isoformat sampleDT) "b").timestamp :=
  ⟨⟨by decide, by decide, by decide⟩,
    C7_timestamp_monotone "a" "b" 0 0 sampleDT0 sampleDT _ _
      (by decide) (by decide) (by decide) rfl rfl⟩

/-! ### Statefulness of the random source across sequential calls -/

theorem round1_intCast (n : ℤ) : round1 (n : ℚ) = (n : ℚ) := by
  unfold round1 roundHalfEven
  have h10 : ((n : ℚ)) * 10 = ((10 * n : ℤ) : ℚ) := by push_cast; ring
  rw [h10, Int.floor_intCast, sub_self, if_pos (by norm_num : (0 : ℚ) < 1 / 2)]
  push_cast
  ring

theorem drawCount_cons_none (t : DateTime) (l : List (Option String × DateTime)) :
    drawCount ((none, t) :: l) = drawCount l := by
  simp [drawCount]

theorem drawCount_cons_some (s : String) (t : DateTime)
    (l : List (Option String × DateTime)) :
    drawCount ((some s, t) :: l) = drawCount l + 1 := by
  simp [drawCount]

/-- Splitting a call sequence: the suffix runs against the source advanced
by exactly the number of samples the prefix drew — the stream position is
the only state carried across calls. -/
theorem runCalls_append (pre rest : List (Option String × DateTime))
    (src : RandomSource) :
    runCalls src (pre ++ rest) =
      runCalls src pre ++ runCalls (src.advance (drawCount pre)) rest := by
  induction pre generalizing src with
  | nil => rfl
  | cons p pre ih =>
    obtain ⟨lp, t⟩ := p
    rcases lp with _ | s
    · simp only [List.cons_append, List.append_eq, runCalls, runRequest,
        drawCount_cons_none]
      rw [ih]
    · simp only [List.cons_append, List.append_eq, runCalls, runRequest,
        uniformDraw, drawCount_cons_some]
      rw [ih]
      have hadv : (RandomSource.mk src.stream (src.pos + 1)).advance (drawCount pre) =
          src.advance (drawCount pre + 1) := by
        simp only [RandomSource.advance]
        congr 1
        omega
      rw [hadv]

theorem runCalls_length (src : RandomSource)
    (calls : List (Option String × DateTime)) :
    (runCalls src calls).length = calls.length := by
  induction calls generalizing src with
  | nil => rfl
  | cons c cs ih => simp [runCalls, ih]

/-- Claim C9, counterexample: calls are not independent of earlier calls.
Removing a preceding valid call changes which sample the shared random
source hands to a later call, and with it the returned `value`: the second
call of `[a, b]` and the sole call of `[b]` — same location, same clock
reading, same initial source — return different readings. -/
theorem C9_counterexample :
    (runCalls cxStream
        [ (some "a", sampleDT0), (some "b", sampleDT0) ]).getD 1
        HandlerResult.validationError ≠
      (runCalls cxStream [ (some "b", sampleDT0) ]).getD 0
        HandlerResult.validationError := by
  have e1 : (runCalls cxStream
      [ (some "a", sampleDT0), (some "b", sampleDT0) ]).getD 1
      HandlerResult.validationError =
      HandlerResult.ok
        (TemperatureReading.mk (round1 1) "C" (isoformat sampleDT0) "b") := rfl
  have e2 : (runCalls cxStream [ (some "b", sampleDT0) ]).getD 0
      HandlerResult.validationError =
      HandlerResult.ok
        (TemperatureReading.mk (round1 0) "C" (isoformat sampleDT0) "b") := rfl
  rw [e1, e2]
  intro h
  injection h with h
  have hv : round1 1 = round1 0 := congrArg TemperatureReading.value h
  have r1 : round1 (1 : ℚ) = 1 := by
    have hc := round1_intCast 1
    push_cast at hc
    exact hc
  have r0 : round1 (0 : ℚ) = 0 := by
    have hc := round1_intCast 0
    push_cast at hc
    exact hc
  rw [r1, r0] at hv
  norm_num at hv

/-- Claim C9, amended: the operation keeps no state other than the shared
random source's position. A call's outcome is a function of its own bound
parameter, its own clock reading, and the sample at the current stream
position alone; consequently any two prefixes that draw equally many
samples are interchangeable before a given call. (Removing or reordering
prefix calls that change the draw count can change the later value, as the
counterexample shows.) -/
theorem C9_memoryless_modulo_stream (pre1 pre2 : List (Option String × DateTime))
    (c : Option String × DateTime) (src : RandomSource)
    (h : drawCount pre1 = drawCount pre2) :
    (runCalls src (pre1 ++ [c])).getD pre1.length HandlerResult.validationError =
      (runCalls src (pre2 ++ [c])).getD pre2.length HandlerResult.validationError := by
  rw [runCalls_append, runCalls_append,
    List.getD_append_right _ _ _ _ (le_of_eq (runCalls_length src pre1)),
    List.getD_append_right _ _ _ _ (le_of_eq (runCalls_length src pre2)),
    runCalls_length, runCalls_length, Nat.sub_self, Nat.sub_self, h]

theorem C9_witness :
    drawCount [ ((some "a" : Option String), sampleDT) ] =
        drawCount [ ((some "zzz" : Option String), sampleDT0) ] ∧
      (runCalls cxStream
          ([ ((some "a" : Option String), sampleDT) ] ++
            [ ((some "b" : Option String), sampleDT0) ])).getD 1
          HandlerResult.validationError =
        (runCalls cxStream
            ([ ((some "zzz" : Option String), sampleDT0) ] ++
              [ ((some "b" : Option String), sampleDT0) ])).getD 1
            HandlerResult.validationError :=
  ⟨rfl,
    C9_memoryless_modulo_stream
      [ ((some "a" : Option String), sampleDT) ]
      [ ((some "zzz" : Option String), sampleDT0) ]
      ((some "b" : Option String), sampleDT0) cxStream rfl⟩

end TemperatureApi
